import Mathlib

/-!
# Verification of the `datetime_tz` module

A shallow embedding of `datetime_tz/__init__.py` (a timezone-aware datetime
library built on Python's `datetime`, `pytz` and `dateutil`) together with
proofs about the embedded operations.

Conventions of the embedding:
  * Python strings are `List Char`; the helper functions below mirror the
    Python `str` methods used by the source (`strip`, `lower`, `replace`,
    substring containment, prefix tests).
  * Python `int` is `Int`; Python floor division `//` is `Int` division `/`
    (which is Euclidean division and agrees with floor division for the
    positive divisors used here).
  * Instants are counted in microseconds since the Unix epoch; `timedelta`
    values are microsecond counts.
  * Unix timestamps (Python floats) are modelled as exact rationals `ℚ`;
    IEEE rounding of the float representation is idealized away.
  * Failures (`TypeError`, `ValueError`, `pytz` errors, `IndexError`) are an
    explicit error type `PyErr` through `Except`.
-/

/-! ## Python string operations on `List Char` -/

/-- Models Python `str.lower()`. -/
def strLower (s : List Char) : List Char := s.map Char.toLower

/-- Models Python `str.startswith(pat)` (`pat` first argument). -/
def isPrefixL : List Char → List Char → Bool
  | [], _ => true
  | _ :: _, [] => false
  | p :: ps, c :: cs => p == c && isPrefixL ps cs

/-- Models the Python substring test `pat in s`. -/
def containsL : List Char → List Char → Bool
  | pat, [] => isPrefixL pat []
  | pat, s@(_ :: rest) => isPrefixL pat s || containsL pat rest

/-- Worker for `replaceL`; the fuel argument (initially the string length)
only serves termination, each step consumes at least one character. -/
def replaceAux (pat rep : List Char) : Nat → List Char → List Char
  | _, [] => []
  | 0, s => s
  | fuel + 1, s@(c :: rest) =>
    if isPrefixL pat s && !pat.isEmpty then
      rep ++ replaceAux pat rep fuel (s.drop pat.length)
    else c :: replaceAux pat rep fuel rest

/-- Models Python `s.replace(pat, rep)`: replaces all non-overlapping
occurrences left to right. -/
def replaceL (s pat rep : List Char) : List Char := replaceAux pat rep s.length s

/-- Models Python `str.strip()` (whitespace trimming on both sides). -/
def trimL (s : List Char) : List Char :=
  ((s.dropWhile Char.isWhitespace).reverse.dropWhile Char.isWhitespace).reverse

/-- Models Python slicing `s[:-n]`. -/
def dropRightL (n : Nat) (s : List Char) : List Char := s.take (s.length - n)

/-- Code-point comparison of strings, as Python `<=` on `str`
(used for `matches.sort(key=lambda x: x.zone)`). -/
def strLe (a b : List Char) : Bool :=
  match a, b with
  | [], _ => true
  | _ :: _, [] => false
  | x :: xs, y :: ys => x < y || (x == y && strLe xs ys)

/-- Stable insertion of `x` into a sorted list (helper for `insertionSort`). -/
def insSorted (le : α → α → Bool) (x : α) : List α → List α
  | [] => [x]
  | y :: ys => if le x y then x :: y :: ys else y :: insSorted le x ys

/-- A stable sort, modelling Python `list.sort`. -/
def insertionSort (le : α → α → Bool) : List α → List α
  | [] => []
  | x :: xs => insSorted le x (insertionSort le xs)

/-- Models Python `int(group)` on a digit group. -/
def natOfDigits (l : List Char) : Nat := l.foldl (fun acc c => acc * 10 + (c.toNat - 48)) 0

/-! ## Proleptic Gregorian calendar

`daysFromCivil`/`civilFromDays` convert between a calendar date and a day
number relative to the Unix epoch (1970-01-01 = day 0).  They model the date
arithmetic of Python's `datetime`/`calendar.timegm` (both use the proleptic
Gregorian calendar); the algorithms are Hinnant's standard civil-calendar
conversions. -/

/-- Day number since 1970-01-01 to `(year, month, day)`. -/
def civilFromDays (z0 : Int) : Int × Int × Int :=
  let z := z0 + 719468
  let era := z / 146097
  let doe := z - era * 146097
  let yoe := (doe - doe / 1460 + doe / 36524 - doe / 146096) / 365
  let y := yoe + era * 400
  let doy := doe - (365 * yoe + yoe / 4 - yoe / 100)
  let mp := (5 * doy + 2) / 153
  let d := doy - (153 * mp + 2) / 5 + 1
  let m := mp + (if mp < 10 then 3 else -9)
  (y + (if m ≤ 2 then 1 else 0), m, d)

/-- `(year, month, day)` to day number since 1970-01-01. -/
def daysFromCivil (y0 m d : Int) : Int :=
  let y := y0 - (if m ≤ 2 then 1 else 0)
  let era := y / 400
  let yoe := y - era * 400
  let doy := (153 * (m + (if m > 2 then -3 else 9)) + 2) / 5 + d - 1
  let doe := yoe * 365 + yoe / 4 - yoe / 100 + doy
  era * 146097 + doe - 719468

set_option maxHeartbeats 16000000 in
/-- Core property of the year-of-era formula inside `civilFromDays`: the
computed year-of-era is in range and its first day is at most `doe`, at
distance at most 365. -/
theorem yoe_spec (doe : Int) (h0 : 0 ≤ doe) (h1 : doe ≤ 146096) :
    0 ≤ (doe - doe / 1460 + doe / 36524 - doe / 146096) / 365 ∧
    (doe - doe / 1460 + doe / 36524 - doe / 146096) / 365 ≤ 399 ∧
    365 * ((doe - doe / 1460 + doe / 36524 - doe / 146096) / 365) +
      ((doe - doe / 1460 + doe / 36524 - doe / 146096) / 365) / 4 -
      ((doe - doe / 1460 + doe / 36524 - doe / 146096) / 365) / 100 ≤ doe ∧
    doe - (365 * ((doe - doe / 1460 + doe / 36524 - doe / 146096) / 365) +
      ((doe - doe / 1460 + doe / 36524 - doe / 146096) / 365) / 4 -
      ((doe - doe / 1460 + doe / 36524 - doe / 146096) / 365) / 100) ≤ 365 := by
  have hy : 0 ≤ (doe - doe / 1460 + doe / 36524 - doe / 146096) / 365 ∧
      (doe - doe / 1460 + doe / 36524 - doe / 146096) / 365 ≤ 399 := by omega
  refine ⟨hy.1, hy.2, ?_⟩
  generalize hgen : (doe - doe / 1460 + doe / 36524 - doe / 146096) / 365 = yoe at hy ⊢
  obtain ⟨hy0, hy1⟩ := hy
  interval_cases yoe <;> omega

set_option maxHeartbeats 1000000 in
/-- `daysFromCivil` applied to the components produced by `civilFromDays`
(era `B`, year-of-era `D`, day-of-year `E`, shifted month `F`). -/
theorem daysFromCivil_reconstruct (B D E F : Int)
    (hD0 : 0 ≤ D) (hD1 : D ≤ 399) (hF0 : 0 ≤ F) (hF1 : F ≤ 11) :
    daysFromCivil (D + B * 400 + (if (F + (if F < 10 then 3 else -9)) ≤ 2 then 1 else 0))
        (F + (if F < 10 then 3 else -9)) (E - (153 * F + 2) / 5 + 1)
      = B * 146097 + (365 * D + D / 4 - D / 100 + E) - 719468 := by
  by_cases h10 : F < 10
  · rw [if_pos h10]
    rw [if_neg (by omega : ¬(F + 3 ≤ 2))]
    simp only [daysFromCivil]
    rw [if_neg (by omega : ¬(F + 3 ≤ 2)), if_pos (by omega : F + 3 > 2)]
    have h400 : (D + B * 400 + 0 - 0) / 400 = B := by omega
    rw [h400]
    omega
  · rw [if_neg h10]
    rw [if_pos (by omega : F + -9 ≤ 2)]
    simp only [daysFromCivil]
    rw [if_pos (by omega : F + -9 ≤ 2), if_neg (by omega : ¬(F + -9 > 2))]
    have h400 : (D + B * 400 + 1 - 1) / 400 = B := by omega
    rw [h400]
    omega

set_option maxHeartbeats 1000000 in
/-- The two calendar conversions are inverse: converting a day number to a
civil date and back is the identity. -/
theorem daysFromCivil_civilFromDays (z : Int) :
    daysFromCivil (civilFromDays z).1 (civilFromDays z).2.1 (civilFromDays z).2.2 = z := by
  simp only [civilFromDays]
  generalize hA : z + 719468 = A
  generalize hB : A / 146097 = B
  generalize hC : A - B * 146097 = C
  have hC0 : 0 ≤ C := by omega
  have hC1 : C ≤ 146096 := by omega
  have hs := yoe_spec C hC0 hC1
  generalize hD : (C - C / 1460 + C / 36524 - C / 146096) / 365 = D
  rw [hD] at hs
  generalize hE : C - (365 * D + D / 4 - D / 100) = E
  rw [hE] at hs
  generalize hF : (5 * E + 2) / 153 = F
  obtain ⟨hD0, hD1, hdoe1, hdoe2⟩ := hs
  have hF0 : 0 ≤ F := by omega
  have hF1 : F ≤ 11 := by omega
  rw [daysFromCivil_reconstruct B D E F hD0 hD1 hF0 hF1]
  omega

/-- Models Python `calendar.isleap`. -/
def isLeapYear (y : Int) : Bool := y % 4 == 0 && (y % 100 != 0 || y % 400 == 0)

/-- Number of days of a month, as `calendar.monthrange(year, month)[1]`. -/
def daysInMonth (y m : Int) : Int :=
  if m = 2 then (if isLeapYear y then 29 else 28)
  else if m = 4 ∨ m = 6 ∨ m = 9 ∨ m = 11 then 30
  else 31

/-! ## The naive `datetime.datetime` core -/

/-- The calendar fields of a Python `datetime.datetime` (without `tzinfo`). -/
structure NaiveDT where
  year : Int
  month : Int
  day : Int
  hour : Int
  minute : Int
  second : Int
  microsecond : Int
deriving DecidableEq, Repr

/-- The field ranges enforced by the `datetime.datetime` constructor. -/
def NaiveDT.Valid (d : NaiveDT) : Prop :=
  1 ≤ d.year ∧ d.year ≤ 9999 ∧ 1 ≤ d.month ∧ d.month ≤ 12 ∧
  1 ≤ d.day ∧ d.day ≤ daysInMonth d.year d.month ∧
  0 ≤ d.hour ∧ d.hour ≤ 23 ∧ 0 ≤ d.minute ∧ d.minute ≤ 59 ∧
  0 ≤ d.second ∧ d.second ≤ 59 ∧ 0 ≤ d.microsecond ∧ d.microsecond ≤ 999999

instance (d : NaiveDT) : Decidable d.Valid := by
  unfold NaiveDT.Valid; infer_instance

/-- The instant (microseconds since the epoch) named by the fields, read as
universal time.  This is the datetime-to-number direction of Python's
ordinal-based date arithmetic. -/
def NaiveDT.toInstant (d : NaiveDT) : Int :=
  daysFromCivil d.year d.month d.day * 86400000000 +
    d.hour * 3600000000 + d.minute * 60000000 + d.second * 1000000 + d.microsecond

/-- Fields from an instant (microseconds since the epoch), the
number-to-datetime direction of Python's ordinal-based date arithmetic. -/
def NaiveDT.ofInstant (i : Int) : NaiveDT :=
  let z := i / 86400000000
  let rem := i % 86400000000
  let c := civilFromDays z
  ⟨c.1, c.2.1, c.2.2, rem / 3600000000, rem % 3600000000 / 60000000,
   rem % 3600000000 % 60000000 / 1000000, rem % 1000000⟩

theorem NaiveDT.toInstant_ofInstant (i : Int) : (NaiveDT.ofInstant i).toInstant = i := by
  simp only [NaiveDT.ofInstant, NaiveDT.toInstant]
  rw [daysFromCivil_civilFromDays]
  omega

theorem NaiveDT.ofInstant_microsecond (i : Int) :
    0 ≤ (NaiveDT.ofInstant i).microsecond ∧ (NaiveDT.ofInstant i).microsecond < 1000000 := by
  simp only [NaiveDT.ofInstant]
  omega

/-! ## The `pytz` timezone model

A `pytz` zone (`DstTzInfo`) is a named table of UTC transition instants with,
for each period, a fixed UTC offset and DST amount.  A *localized* tzinfo
instance (what `localize`/`fromutc` attach to a datetime) is the zone
together with one selected period's fixed info. -/

/-- One period's data: `_utcoffset` and `_dst`, in microseconds. -/
structure TInfo where
  utcoffset : Int
  dst : Int
deriving DecidableEq, Repr

/-- A zone rule table: name, info before the first transition, and the
(sorted) list of `(utc transition instant, info from then on)`. -/
structure TZRule where
  zone : List Char
  base : TInfo
  transitions : List (Int × TInfo)
deriving DecidableEq, Repr

/-- The period info in effect at a UTC instant (the `bisect` lookup of
`pytz.tzinfo.DstTzInfo.fromutc`). -/
def TZRule.infoAt (r : TZRule) (i : Int) : TInfo :=
  r.transitions.foldl (fun acc t => if t.1 ≤ i then t.2 else acc) r.base

/-- The periods of a rule as half-open UTC intervals
`(start?, end?, info)`, `none` meaning unbounded. -/
def TZRule.intervalsFrom : Option Int → TInfo → List (Int × TInfo) → List (Option Int × Option Int × TInfo)
  | lo, cur, [] => [(lo, none, cur)]
  | lo, cur, (t, i) :: rest => (lo, some t, cur) :: TZRule.intervalsFrom (some t) i rest

def TZRule.intervals (r : TZRule) : List (Option Int × Option Int × TInfo) :=
  TZRule.intervalsFrom none r.base r.transitions

/-- Does the naive local instant fall inside the local-time image of the
given UTC interval? -/
def memLocal (naive : Int) : Option Int × Option Int × TInfo → Bool
  | (lo, hi, inf) =>
    (match lo with
     | none => true
     | some a => decide (a + inf.utcoffset ≤ naive)) &&
    (match hi with
     | none => true
     | some b => decide (naive < b + inf.utcoffset))

/-- The period infos that could have produced the given naive local time:
two infos for an ambiguous (fall-back) time, none for a nonexistent
(spring-forward) time.  Models the `possible_loc_dt` computation of
`pytz.tzinfo.DstTzInfo.localize`. -/
def TZRule.localizeCandidates (r : TZRule) (naive : Int) : List TInfo :=
  (r.intervals.filter (memLocal naive)).map (fun x => x.2.2)

/-- The error outcomes of the embedded operations.  Each constructor names
one Python exception site of the source:
`notEnoughArguments`/`missingZone`/`conflictingZone` are the `TypeError`s of
`datetime_tz.__new__`; `invalidKeywordArgument` and `valueError` are the
`TypeError`/`ValueError` of the plain `datetime.datetime` constructor;
`unknownZone` is `pytz.UnknownTimeZoneError` from `_tzinfome`;
`ambiguousTime`/`nonExistentTime`/`indexError` come from `pytz .localize`;
`unparseableUnit`/`unparseableDate` are the `ValueError`s of `smartparse`;
`detectionFailed` is the final error of `detect_timezone`. -/
inductive PyErr where
  | notEnoughArguments
  | unknownZone
  | missingZone
  | conflictingZone
  | invalidKeywordArgument
  | valueError
  | ambiguousTime
  | nonExistentTime
  | indexError
  | unparseableUnit
  | unparseableDate
  | detectionFailed
deriving DecidableEq, Repr

/-- `pytz` `localize(dt, is_dst)`: a unique candidate is returned; no
candidate is a nonexistent time; several candidates with `is_dst=None`
raise `AmbiguousTimeError`, with a flag the candidate with the matching DST
state is chosen (an empty filter raises `IndexError`). -/
def TZRule.localize (r : TZRule) (naive : Int) (is_dst : Option Bool) : Except PyErr TInfo :=
  match r.localizeCandidates naive, is_dst with
  | [c], _ => .ok c
  | [], _ => .error .nonExistentTime
  | _ :: _ :: _, none => .error .ambiguousTime
  | c1 :: c2 :: cs, some b =>
    match (c1 :: c2 :: cs).filter (fun c => (decide (c.dst ≠ 0)) == b) with
    | [] => .error .indexError
    | c :: _ => .ok c

/-- A localized tzinfo instance: the zone rules plus the selected fixed
period info. -/
structure Tzi where
  rule : TZRule
  info : TInfo
deriving DecidableEq, Repr

/-- `pytz` `normalize`: re-derive the correct period for the instant the
(fields, attached offset) pair denotes, re-expressing the fields. -/
def Tzi.normalize (t : Tzi) (d : NaiveDT) : NaiveDT × Tzi :=
  let inst := d.toInstant - t.info.utcoffset
  let ninfo := t.rule.infoAt inst
  (NaiveDT.ofInstant (inst + ninfo.utcoffset), ⟨t.rule, ninfo⟩)

/-- `pytz.utc` as a rule (offset 0, no transitions). -/
def utcTZ : TZRule := ⟨"UTC".data, ⟨0, 0⟩, []⟩

/-- The tzinfo `pytz.utc.localize` attaches. -/
def utcTzi : Tzi := ⟨utcTZ, ⟨0, 0⟩⟩

/-- All offsets of a rule are whole multiples of a second, as in the tz
database files `pytz` reads. -/
def TZRule.OffsetsWF (r : TZRule) : Prop :=
  (1000000 : Int) ∣ r.base.utcoffset ∧ ∀ p ∈ r.transitions, (1000000 : Int) ∣ p.2.utcoffset

theorem foldl_info_dvd (i : Int) (l : List (Int × TInfo)) (acc : TInfo)
    (hacc : (1000000 : Int) ∣ acc.utcoffset)
    (hl : ∀ p ∈ l, (1000000 : Int) ∣ p.2.utcoffset) :
    (1000000 : Int) ∣ (l.foldl (fun acc t => if t.1 ≤ i then t.2 else acc) acc).utcoffset := by
  induction l generalizing acc with
  | nil => exact hacc
  | cons p rest ih =>
    simp only [List.foldl_cons]
    apply ih
    · by_cases hp : p.1 ≤ i
      · simpa [hp] using hl p (by simp)
      · simpa [hp] using hacc
    · intro q hq
      exact hl q (by simp [hq])

theorem TZRule.infoAt_dvd (r : TZRule) (i : Int) (h : r.OffsetsWF) :
    (1000000 : Int) ∣ (r.infoAt i).utcoffset :=
  foldl_info_dvd i r.transitions r.base h.1 h.2

/-! ## The `datetime_tz` value type and constructor -/

/-- A zone identifier as accepted where the source accepts "a string or a
tzinfo object". -/
inductive ZoneArg where
  | name (s : List Char)
  | rule (r : TZRule)
deriving DecidableEq, Repr

/-- The zone catalog (`pytz`'s database): name-to-rule pairs; the key list
models `pytz.all_timezones`. -/
abbrev Catalog := List (List Char × TZRule)

/-- `_tzinfome`: a tzinfo object passes through, a string is looked up in
the provider, an unknown name fails with `UnknownTimeZoneError`. -/
def tzinfome (catalog : Catalog) : ZoneArg → Except PyErr TZRule
  | .rule r => .ok r
  | .name s =>
    match catalog.lookup s with
    | some r => .ok r
    | none => .error .unknownZone

/-- A `datetime_tz` instance: local calendar fields, the attached localized
tzinfo, and the stored `is_dst` attribute. -/
structure AwareDT where
  dt : NaiveDT
  tzi : Tzi
  is_dst : Bool
deriving DecidableEq, Repr

/-- The absolute instant (µs since the epoch, UTC) of the value. -/
def AwareDT.instant (a : AwareDT) : Int := a.dt.toInstant - a.tzi.info.utcoffset

/-- Python `==` between aware datetimes compares the absolute instants. -/
def pyEq (a b : AwareDT) : Prop := a.instant = b.instant

/-- Python `<` between aware datetimes compares the absolute instants. -/
def pyLt (a b : AwareDT) : Bool := decide (a.instant < b.instant)

/-- The leading constructor argument: either an existing `datetime.datetime`
(aware when a tzinfo is present) or raw calendar fields. -/
inductive LeadArg where
  | dtArg (d : NaiveDT) (tz : Option Tzi)
  | fieldsArg (f : NaiveDT)
deriving DecidableEq

/-- The keyword arguments `datetime_tz.__new__` inspects. -/
structure Kw where
  tzinfo : Option ZoneArg
  is_dst : Option Bool
deriving DecidableEq

/-- `datetime_tz.__new__`.  `posZone` is a trailing positional argument that
is a string or tzinfo object (consumed as the target zone); otherwise a
`tzinfo` keyword is consumed.  A leading datetime argument has its fields
copied, subject to the missing/conflicting-zone checks; raw fields go
through the plain `datetime.datetime` constructor (which rejects leftover
keywords such as `is_dst` and validates ranges).  An aware result is
re-normalized; a naive one is localized, retrying an ambiguous time with
the `is_dst` keyword (`IndexError` becoming `AmbiguousTimeError`). -/
def dtNew (localtz : TZRule) (catalog : Catalog) (lead : LeadArg)
    (posZone : Option ZoneArg) (kw : Kw) : Except PyErr AwareDT :=
  let tzc : Option ZoneArg × Kw :=
    match posZone with
    | some z => (some z, kw)
    | none =>
      match kw.tzinfo with
      | some z => (some z, { kw with tzinfo := none })
      | none => (none, kw)
  let tzR : Except PyErr (Option TZRule) :=
    match tzc.1 with
    | some z => (tzinfome catalog z).map some
    | none => .ok none
  match tzR with
  | .error e => .error e
  | .ok tzinfoR =>
    let dtE : Except PyErr (NaiveDT × Option Tzi) :=
      match lead with
      | .dtArg d src =>
        if tzinfoR.isNone && src.isNone then .error .missingZone
        else if tzinfoR.isSome && src.isSome then .error .conflictingZone
        else .ok (d, src)
      | .fieldsArg f =>
        if tzc.2.is_dst.isSome then .error .invalidKeywordArgument
        else
          match tzc.2.tzinfo with
          | some (.name _) => .error .invalidKeywordArgument
          | some (.rule r) => if f.Valid then .ok (f, some ⟨r, r.base⟩) else .error .valueError
          | none => if f.Valid then .ok (f, none) else .error .valueError
    match dtE with
    | .error e => .error e
    | .ok (d, srcTz) =>
      match srcTz with
      | some tzi0 =>
        let n := tzi0.normalize d
        .ok ⟨n.1, n.2, decide (n.2.info.dst ≠ 0)⟩
      | none =>
        let tz := tzinfoR.getD localtz
        match tz.localize d.toInstant none with
        | .ok info => .ok ⟨d, ⟨tz, info⟩, decide (info.dst ≠ 0)⟩
        | .error .ambiguousTime =>
          (match tz.localize d.toInstant kw.is_dst with
           | .ok info => .ok ⟨d, ⟨tz, info⟩, decide (info.dst ≠ 0)⟩
           | .error .indexError => .error .ambiguousTime
           | .error e => .error e)
        | .error e => .error e

/-! ## `datetime_tz` operations -/

/-- `calendar.timegm` on a UTC time tuple (seconds since the epoch). -/
def timegm (t : NaiveDT) : Int :=
  daysFromCivil t.year t.month t.day * 86400 + t.hour * 3600 + t.minute * 60 + t.second

/-- `self.utctimetuple()`: the fields of `self - utcoffset`; a time tuple
carries no microseconds. -/
def AwareDT.utctimetuple (a : AwareDT) : NaiveDT :=
  let u := NaiveDT.ofInstant a.instant
  { u with microsecond := 0 }

/-- `datetime_tz.totimestamp`:
`calendar.timegm(self.utctimetuple()) + 1e-6 * self.microsecond`. -/
def AwareDT.totimestamp (a : AwareDT) : ℚ :=
  (timegm a.utctimetuple : ℚ) + (1 / 1000000 : ℚ) * (a.dt.microsecond : ℚ)

/-- The naive datetime part of `self.asdatetime(naive=False).astimezone(tz)`
for a pytz zone `tz`: `fromutc` re-expresses the instant with the period
info in effect. -/
def AwareDT.astimezonePure (a : AwareDT) (tz : TZRule) : NaiveDT × Tzi :=
  let inst := a.instant
  let info := tz.infoAt inst
  (NaiveDT.ofInstant (inst + info.utcoffset), ⟨tz, info⟩)

/-- `datetime_tz.astimezone`: resolve the zone via `_tzinfome`, convert via
the plain datetime `astimezone`, and rewrap through the constructor. -/
def AwareDT.astimezone (localtz : TZRule) (catalog : Catalog) (a : AwareDT)
    (z : ZoneArg) : Except PyErr AwareDT :=
  match tzinfome catalog z with
  | .error e => .error e
  | .ok tz =>
    let p := a.astimezonePure tz
    dtNew localtz catalog (.dtArg p.1 (some p.2)) none ⟨none, none⟩

/-- Calendar-field replacements for `replace` (each `none` keeps the
field). -/
structure FieldRepl where
  year : Option Int
  month : Option Int
  day : Option Int
  hour : Option Int
  minute : Option Int
  second : Option Int
  microsecond : Option Int
deriving DecidableEq, Repr

def NaiveDT.applyRepl (d : NaiveDT) (r : FieldRepl) : NaiveDT :=
  ⟨r.year.getD d.year, r.month.getD d.month, r.day.getD d.day, r.hour.getD d.hour,
   r.minute.getD d.minute, r.second.getD d.second, r.microsecond.getD d.microsecond⟩

/-- `datetime_tz.replace`: an `is_dst` keyword defaults to the value's own
stored flag; the plain naive `replace` validates field ranges; the result is
rebuilt by the constructor with `tzinfo=(override or self.tzinfo.zone)` and
the `is_dst` keyword. -/
def AwareDT.replace (localtz : TZRule) (catalog : Catalog) (a : AwareDT)
    (repl : FieldRepl) (tzOv : Option ZoneArg) (isDstOv : Option Bool) :
    Except PyErr AwareDT :=
  let is_dst := isDstOv.getD a.is_dst
  let replaced := a.dt.applyRepl repl
  if replaced.Valid then
    dtNew localtz catalog (.dtArg replaced none) none
      ⟨some (tzOv.getD (.name a.tzi.rule.zone)), some is_dst⟩
  else .error .valueError

/-- CPython turns a fractional-second timestamp into whole microseconds by
rounding (modelled as round-half-up; the tie behavior is unreachable from
exact microsecond data). -/
def pyRound (q : ℚ) : Int := ⌊q + 1 / 2⌋

/-- `datetime_tz.utcfromtimestamp`: `datetime.datetime.utcfromtimestamp`,
then `pytz.utc.localize`, then the `datetime_tz` constructor. -/
def utcfromtimestamp (localtz : TZRule) (catalog : Catalog) (ts : ℚ) :
    Except PyErr AwareDT :=
  let us := pyRound (ts * 1000000)
  let obj := NaiveDT.ofInstant us
  dtNew localtz catalog (.dtArg obj (some utcTzi)) none ⟨none, none⟩

/-- `datetime_tz.utcnow` given the current UTC instant:
`cls(datetime.datetime.utcnow(), tzinfo=pytz.utc)`. -/
def dtUtcnow (localtz : TZRule) (catalog : Catalog) (utcInst : Int) :
    Except PyErr AwareDT :=
  dtNew localtz catalog (.dtArg (NaiveDT.ofInstant utcInst) none) none
    ⟨some (.rule utcTZ), none⟩

/-- `datetime_tz.now`: `utcnow()` converted to the given zone (default: the
process local zone). -/
def dtNow (localtz : TZRule) (catalog : Catalog) (utcInst : Int)
    (tzArg : Option ZoneArg) : Except PyErr AwareDT :=
  match dtUtcnow localtz catalog utcInst with
  | .error e => .error e
  | .ok obj => obj.astimezone localtz catalog (tzArg.getD (.rule localtz))

/-- The wrapped `__add__`/`__sub__` with a `timedelta` (`delta` in µs):
plain field arithmetic keeping the attached fixed tzinfo, rewrapped through
the constructor, which re-normalizes against the zone rules. -/
def AwareDT.addUs (a : AwareDT) (delta : Int) : AwareDT :=
  let d := NaiveDT.ofInstant (a.dt.toInstant + delta)
  let n := a.tzi.normalize d
  ⟨n.1, n.2, decide (n.2.info.dst ≠ 0)⟩

/-- `datetime_tz.min`: `datetime.datetime.min + 2 days`, localized to UTC. -/
def dtzMin : AwareDT := ⟨⟨1, 1, 3, 0, 0, 0, 0⟩, utcTzi, false⟩

/-- `datetime_tz.max`: `datetime.datetime.max - 2 days`, localized to UTC. -/
def dtzMax : AwareDT := ⟨⟨9999, 12, 29, 23, 59, 59, 999999⟩, utcTzi, false⟩

/-! ## `iterate`: range iterators

The source's `between` is a generator (`while end is None or toyield < end:
yield toyield; toyield += delta`).  The embedding returns the list of the
first `fuel` yields; a run that stops by itself is unaffected by any larger
`fuel`. -/

def betweenAux (delta : Int) (endO : Option AwareDT) : AwareDT → Nat → List AwareDT
  | _, 0 => []
  | cur, fuel + 1 =>
    match endO with
    | none => cur :: betweenAux delta endO (cur.addUs delta) fuel
    | some e => if cur.instant < e.instant then cur :: betweenAux delta endO (cur.addUs delta) fuel else []

/-- `iterate.between(start, delta, end)`. -/
def iterate_between (start : AwareDT) (delta : Int) (endO : Option AwareDT) (fuel : Nat) :
    List AwareDT :=
  betweenAux delta endO start fuel

/-- `iterate.weeks`: `between(start, timedelta(days=7), end)`. -/
def iterate_weeks (start : AwareDT) (endO : Option AwareDT) (fuel : Nat) : List AwareDT :=
  iterate_between start 604800000000 endO fuel

/-- `iterate.days`: `between(start, timedelta(days=1), end)`. -/
def iterate_days (start : AwareDT) (endO : Option AwareDT) (fuel : Nat) : List AwareDT :=
  iterate_between start 86400000000 endO fuel

/-- `iterate.hours`: `between(start, timedelta(hours=1), end)`. -/
def iterate_hours (start : AwareDT) (endO : Option AwareDT) (fuel : Nat) : List AwareDT :=
  iterate_between start 3600000000 endO fuel

/-- `iterate.minutes`: `between(start, timedelta(minutes=1), end)`. -/
def iterate_minutes (start : AwareDT) (endO : Option AwareDT) (fuel : Nat) : List AwareDT :=
  iterate_between start 60000000 endO fuel

/-- `iterate.seconds`: the source computes `between(start,
timedelta(minutes=1), end)` here as well (sic, despite its name and
docstring). -/
def iterate_seconds (start : AwareDT) (endO : Option AwareDT) (fuel : Nat) : List AwareDT :=
  iterate_between start 60000000 endO fuel

/-! ## `detect_timezone`

The five detection strategies do I/O (platform query, environment, files);
each is abstracted as its result, an optional zone rule.  `detect_timezone`
itself is the cascade over them. -/

structure DetectEnv where
  isWin32 : Bool
  windowsResult : Option TZRule
  environResult : Option TZRule
  etcTimezoneResult : Option TZRule
  etcLocaltimeResult : Option TZRule
  phpResult : Option TZRule

inductive Strategy where
  | windows
  | environ
  | etcTimezone
  | etcLocaltime
  | php
deriving DecidableEq, Repr

/-- The cascade after the platform-specific windows step, paired with the
list of strategies it runs. -/
def detectAfterWindows (env : DetectEnv) : Except PyErr TZRule × List Strategy :=
  match env.environResult with
  | some tz => (.ok tz, [.environ])
  | none =>
    match env.etcTimezoneResult with
    | some tz => (.ok tz, [.environ, .etcTimezone])
    | none =>
      match env.etcLocaltimeResult with
      | some tz => (.ok tz, [.environ, .etcTimezone, .etcLocaltime])
      | none =>
        match env.phpResult with
        | some tz => (.ok tz, [.environ, .etcTimezone, .etcLocaltime, .php])
        | none => (.error .detectionFailed, [.environ, .etcTimezone, .etcLocaltime, .php])

/-- `detect_timezone`, instrumented with the list of strategies run.  On
win32 the platform query runs first; elsewhere it is absent. -/
def detectTrace (env : DetectEnv) : Except PyErr TZRule × List Strategy :=
  if env.isWin32 then
    match env.windowsResult with
    | some tz => (.ok tz, [.windows])
    | none =>
      let r := detectAfterWindows env
      (r.1, .windows :: r.2)
  else detectAfterWindows env

/-- `detect_timezone`: the returned rule, or `pytz.UnknownTimeZoneError`
when every strategy yields nothing. -/
def detect_timezone (env : DetectEnv) : Except PyErr TZRule := (detectTrace env).1

/-- What each strategy yields (the platform query yields nothing off
win32). -/
def stratResult (env : DetectEnv) : Strategy → Option TZRule
  | .windows => if env.isWin32 then env.windowsResult else none
  | .environ => env.environResult
  | .etcTimezone => env.etcTimezoneResult
  | .etcLocaltime => env.etcLocaltimeResult
  | .php => env.phpResult

def firstSome : List (Option α) → Option α
  | [] => none
  | some x :: _ => some x
  | none :: rest => firstSome rest

def leadingNones : List (Option α) → Nat
  | [] => 0
  | none :: rest => 1 + leadingNones rest
  | some _ :: _ => 0

def strategyOrder : List Strategy := [.windows, .environ, .etcTimezone, .etcLocaltime, .php]

/-! ## `_detect_timezone_etc_localtime` -/

/-- The environment of `_detect_timezone_etc_localtime`: the parsed
`/etc/localtime` rule (when the file exists), the on-disk database from
`_load_local_tzinfo`, the `pytz` database (whose keys model
`pytz.all_timezones`), and the reflective attribute comparison of the
matching loop (`dir`/`getattr`, abstracted as a predicate). -/
structure LocaltimeEnv where
  localtime : Option TZRule
  localDb : List (List Char × TZRule)
  pytzDb : Catalog
  attrsMatch : TZRule → TZRule → Bool

/-- The sorted match list: scan the local database if nonempty (else the
pytz catalog), keep the zones whose attributes match the parsed rule and
whose name is in `pytz.all_timezones` (resolved via `_tzinfome`), and sort
by zone name. -/
def localtimeMatches (env : LocaltimeEnv) (lt : TZRule) : List TZRule :=
  let pairs := if env.localDb.isEmpty then env.pytzDb else env.localDb
  let raw := pairs.filterMap (fun p =>
    if env.attrsMatch p.2 lt then
      match env.pytzDb.lookup p.1 with
      | some ptz => some ptz
      | none => none
    else none)
  insertionSort (fun a b => strLe a.zone b.zone) raw

/-- Assignment into `pytz._tzinfo_cache` (a dict keyed by name). -/
def cacheInsert (k : List Char) (v : TZRule) (c : Catalog) : Catalog :=
  (k, v) :: c.filter (fun p => !(p.1 == k))

/-- `_detect_timezone_etc_localtime`, with the provider identifier cache as
explicit state.  One match: return it.  Several: warn, return the first.
None: warn, register the raw parsed rule in the cache under
`"/etc/localtime"` and return it.  Missing file: `None`. -/
def etcLocaltimeDetect (env : LocaltimeEnv) (cache : Catalog) :
    Option TZRule × Catalog :=
  match env.localtime with
  | none => (none, cache)
  | some lt =>
    match localtimeMatches env lt with
    | [m] => (some m, cache)
    | m :: _ :: _ => (some m, cache)
    | [] => (some lt, cacheInsert "/etc/localtime".data lt cache)

/-! ## `dateutil.relativedelta` (the parts `smartparse` uses) -/

/-- The unit dictionary built by the "ago" branch (`result[bit] = amount`;
assignment overwrites). -/
structure AgoDict where
  seconds : Option Int
  minutes : Option Int
  hours : Option Int
  days : Option Int
  weeks : Option Int
  months : Option Int
  years : Option Int
deriving DecidableEq, Repr

def emptyAgo : AgoDict := ⟨none, none, none, none, none, none, none⟩

/-- The `tocheck` tuple of unit names. -/
def unitNames : List (List Char) :=
  ["seconds".data, "minutes".data, "hours".data, "days".data, "weeks".data,
   "months".data, "years".data]

/-- The per-unit regex `^([X]|((stem)s?))$` with `X = bit[0]` and
`stem = bit[:-1]`: the label must be the single letter, the stem, or the
stem plus `s` (the full name). -/
def unitMatches (bit unit : List Char) : Bool :=
  unit == bit.take 1 || unit == bit.dropLast || unit == bit

/-- The inner loop over `tocheck`: the first unit name whose regex accepts
the label. -/
def matchUnit (unit : List Char) : Option (List Char) :=
  unitNames.find? (fun bit => unitMatches bit unit)

def setUnit (d : AgoDict) (bit : List Char) (n : Int) : AgoDict :=
  if bit == "seconds".data then { d with seconds := some n }
  else if bit == "minutes".data then { d with minutes := some n }
  else if bit == "hours".data then { d with hours := some n }
  else if bit == "days".data then { d with days := some n }
  else if bit == "weeks".data then { d with weeks := some n }
  else if bit == "months".data then { d with months := some n }
  else if bit == "years".data then { d with years := some n }
  else d

/-- The greedy scan `re.finditer("([0-9]+)([^0-9]*)", s)` as
`(int(group1), group2.strip())` pairs.  Fuel (the string length) only
serves termination. -/
def agoTokensF : Nat → List Char → List (Nat × List Char)
  | 0, _ => []
  | _ + 1, [] => []
  | fuel + 1, c :: rest =>
    if c.isDigit then
      let ds := rest.takeWhile Char.isDigit
      let r1 := rest.dropWhile Char.isDigit
      let us := r1.takeWhile (fun ch => !ch.isDigit)
      let r2 := r1.dropWhile (fun ch => !ch.isDigit)
      (natOfDigits (c :: ds), trimL us) :: agoTokensF fuel r2
    else agoTokensF fuel rest

def agoTokens (l : List Char) : List (Nat × List Char) := agoTokensF l.length l

/-- The loop body over the scanned pairs: an unmatched unit label raises
`ValueError("Was not able to parse date unit ...")`. -/
def parseAgoUnits : List (Nat × List Char) → AgoDict → Except PyErr AgoDict
  | [], d => .ok d
  | (n, u) :: rest, d =>
    match matchUnit u with
    | some bit => parseAgoUnits rest (setUnit d bit (n : Int))
    | none => .error .unparseableUnit

/-- A normalized `relativedelta` (weeks already folded into days, months
normalized into years). -/
structure RelDelta where
  years : Int
  months : Int
  days : Int
  hours : Int
  minutes : Int
  seconds : Int
  microseconds : Int
deriving DecidableEq, Repr

/-- `relativedelta(**result)`: `__init__` adds `weeks*7` to days, `_fix`
carries month excess beyond ±11 into years (sign-aware divmod). -/
def RelDelta.ofDict (d : AgoDict) : RelDelta :=
  let months0 := d.months.getD 0
  let years0 := d.years.getD 0
  let fix : Int × Int :=
    if months0 > 11 || months0 < -11 then
      let s : Int := if months0 < 0 then -1 else 1
      let q := (months0 * s) / 12
      let r := (months0 * s) % 12
      (years0 + q * s, r * s)
    else (years0, months0)
  ⟨fix.1, fix.2, d.days.getD 0 + 7 * (d.weeks.getD 0), d.hours.getD 0,
   d.minutes.getD 0, d.seconds.getD 0, 0⟩

/-- `relativedelta.__neg__`. -/
def RelDelta.neg (r : RelDelta) : RelDelta :=
  ⟨-r.years, -r.months, -r.days, -r.hours, -r.minutes, -r.seconds, -r.microseconds⟩

/-- `relativedelta.__radd__` on a `datetime_tz`: shift year and month (day
clamped to the month length) through the value's own `replace`, then add
the time components as one `timedelta`. -/
def relAdd (localtz : TZRule) (catalog : Catalog) (delta : RelDelta) (a : AwareDT) :
    Except PyErr AwareDT :=
  let year0 := a.dt.year + delta.years
  let ym : Int × Int :=
    if delta.months ≠ 0 then
      let m := a.dt.month + delta.months
      if m > 12 then (year0 + 1, m - 12)
      else if m < 1 then (year0 - 1, m + 12)
      else (year0, m)
    else (year0, a.dt.month)
  let day := min (daysInMonth ym.1 ym.2) a.dt.day
  match a.replace localtz catalog ⟨some ym.1, some ym.2, some day, none, none, none, none⟩ none none with
  | .error e => .error e
  | .ok ret =>
    .ok (ret.addUs (delta.days * 86400000000 + delta.hours * 3600000000 +
      delta.minutes * 60000000 + delta.seconds * 1000000 + delta.microseconds))

/-- `dt -= delta` with a `relativedelta`: the wrapped `__sub__` defers to
`relativedelta.__rsub__`, which applies the negated delta. -/
def subRelativedelta (localtz : TZRule) (catalog : Catalog) (a : AwareDT)
    (delta : RelDelta) : Except PyErr AwareDT :=
  relAdd localtz catalog delta.neg a

/-! ## `datetime_tz.smartparse`

`utcInst` is the current UTC instant (the reading `utcnow()` would take).
`extParse` abstracts the final branch (lines 676-696 of the source): the
delegation to `dateutil.parser.parse` with the computed default and the
`pytz_abbr` table, an external collaborator. -/

def midnightRepl : FieldRepl := ⟨none, none, none, some 0, some 0, some 0, some 0⟩

def smartparse (localtz : TZRule) (catalog : Catalog)
    (extParse : List Char → NaiveDT → Except PyErr AwareDT)
    (utcInst : Int) (tzArg : Option ZoneArg) (toparse0 : List Char) :
    Except PyErr AwareDT :=
  let toparse := trimL toparse0
  match dtNow localtz catalog utcInst tzArg with
  | .error e => .error e
  | .ok dt0 =>
    match dt0.replace localtz catalog midnightRepl none none with
    | .error e => .error e
    | .ok default0 =>
      let prefixed : Except PyErr (List Char × AwareDT × AwareDT) :=
        if isPrefixL "end of ".data (strLower toparse) then
          let tp := trimL (toparse.drop 7)
          let d1 := dt0.addUs 86400000000
          match d1.replace localtz catalog midnightRepl none none with
          | .error e => .error e
          | .ok d2 =>
            let d3 := d2.addUs (-1)
            .ok (tp, d3, d3)
        else if isPrefixL "start of ".data (strLower toparse) then
          let tp := trimL (toparse.drop 9)
          match dt0.replace localtz catalog midnightRepl none none with
          | .error e => .error e
          | .ok d2 => .ok (tp, d2, d2)
        else .ok (toparse, dt0, default0)
      match prefixed with
      | .error e => .error e
      | .ok (tp, dt1, default1) =>
        let lower := strLower tp
        if lower == "now".data || lower == "today".data then .ok dt1
        else if lower == "yesterday".data then .ok (dt1.addUs (-86400000000))
        else if lower == "tomorrow".data || lower == "tommorrow".data then
          .ok (dt1.addUs 86400000000)
        else if containsL "ago".data lower then
          let s1 := dropRightL 3 lower
          let s2 := replaceL s1 "a ".data "1 ".data
          let s3 := replaceL s2 "an ".data "1 ".data
          let s4 := replaceL s3 " and ".data " ".data
          match parseAgoUnits (agoTokens s4) emptyAgo with
          | .error e => .error e
          | .ok dict => subRelativedelta localtz catalog dt1 (RelDelta.ofDict dict)
        else extParse tp default1.dt

/-! ## Basic lemmas about the embedded operations -/

theorem toInstant_eq_timegm (t : NaiveDT) :
    t.toInstant = timegm t * 1000000 + t.microsecond := by
  simp only [NaiveDT.toInstant, timegm]
  ring

theorem timegm_utctimetuple (a : AwareDT) :
    timegm a.utctimetuple = timegm (NaiveDT.ofInstant a.instant) := rfl

/-- `normalize` keeps the absolute instant. -/
theorem Tzi.normalize_instant (t : Tzi) (d : NaiveDT) :
    (t.normalize d).1.toInstant - (t.normalize d).2.info.utcoffset
      = d.toInstant - t.info.utcoffset := by
  simp only [Tzi.normalize, NaiveDT.toInstant_ofInstant]
  ring

/-- The wrapped `timedelta` arithmetic shifts the absolute instant by
exactly the delta. -/
theorem AwareDT.addUs_instant (a : AwareDT) (delta : Int) :
    (a.addUs delta).instant = a.instant + delta := by
  simp only [AwareDT.addUs, AwareDT.instant]
  rw [Tzi.normalize_instant, NaiveDT.toInstant_ofInstant]
  ring

theorem AwareDT.addUs_rule (a : AwareDT) (delta : Int) :
    (a.addUs delta).tzi.rule = a.tzi.rule := rfl

/-- `totimestamp`, scaled to microseconds, is exactly the instant — as long
as the stored microsecond field is in range (a `datetime` invariant) and
the attached offset is a whole number of seconds (a `pytz` invariant). -/
theorem totimestamp_scaled (a : AwareDT)
    (h0 : 0 ≤ a.dt.microsecond) (h1 : a.dt.microsecond < 1000000)
    (hoff : (1000000 : Int) ∣ a.tzi.info.utcoffset) :
    a.totimestamp * 1000000 = (a.instant : ℚ) := by
  have key : timegm a.utctimetuple * 1000000 + a.dt.microsecond = a.instant := by
    rw [timegm_utctimetuple]
    have e1 : timegm (NaiveDT.ofInstant a.instant) * 1000000
        = a.instant - (NaiveDT.ofInstant a.instant).microsecond := by
      have := toInstant_eq_timegm (NaiveDT.ofInstant a.instant)
      rw [NaiveDT.toInstant_ofInstant] at this
      omega
    have e2 : (NaiveDT.ofInstant a.instant).microsecond = a.instant % 1000000 := by
      simp only [NaiveDT.ofInstant]
      omega
    have e3 : a.instant % 1000000 = a.dt.microsecond := by
      obtain ⟨k, hk⟩ := hoff
      have e4 := toInstant_eq_timegm a.dt
      simp only [AwareDT.instant] at *
      omega
    omega
  have keyQ : ((timegm a.utctimetuple : ℚ) * 1000000 + (a.dt.microsecond : ℚ))
      = (a.instant : ℚ) := by
    exact_mod_cast congrArg (fun n : Int => (n : ℚ)) key
  unfold AwareDT.totimestamp
  field_simp
  linarith [keyQ]

theorem pyRound_int (n : Int) : pyRound (n : ℚ) = n := by
  unfold pyRound
  rw [Int.floor_eq_iff]
  constructor
  · norm_num
  · norm_num


instance {ε α : Type} [DecidableEq ε] [DecidableEq α] : DecidableEq (Except ε α) := fun x y =>
  match x, y with
  | .error a, .error b =>
    decidable_of_iff (a = b) ⟨fun h => by rw [h], fun h => by injection h⟩
  | .ok a, .ok b =>
    decidable_of_iff (a = b) ⟨fun h => by rw [h], fun h => by injection h⟩
  | .error _, .ok _ => isFalse (fun h => by injection h)
  | .ok _, .error _ => isFalse (fun h => by injection h)

/-! ## Concrete fixtures used by claim witnesses and counterexamples -/

/-- A one-entry catalog holding UTC. -/
def utcCatalog : Catalog := [("UTC".data, utcTZ)]

/-- The external conventional-format parser branch, instantiated to always
fail (it is never reached by the inputs below). -/
def extNull : List Char → NaiveDT → Except PyErr AwareDT := fun _ _ => .error .unparseableDate

/-- A sample current UTC instant: 2020-05-06 07:08:09.123456. -/
def nowInst : Int := NaiveDT.toInstant ⟨2020, 5, 6, 7, 8, 9, 123456⟩

/-- A sample aware value at that instant in UTC. -/
def sampleV : AwareDT := ⟨⟨2020, 5, 6, 7, 8, 9, 123456⟩, utcTzi, false⟩

/-- A two-transition extract of US/Eastern around 2010 (offsets in µs):
EST −5 h before 2010-03-14 07:00 UTC, EDT −4 h (DST 1 h) until
2010-11-07 06:00 UTC, EST again afterwards. -/
def eastern2010 : TZRule :=
  ⟨"US/Eastern".data, ⟨-18000000000, 0⟩,
   [(NaiveDT.toInstant ⟨2010, 3, 14, 7, 0, 0, 0⟩, ⟨-14400000000, 3600000000⟩),
    (NaiveDT.toInstant ⟨2010, 11, 7, 6, 0, 0, 0⟩, ⟨-18000000000, 0⟩)]⟩

/-! ## Claims -/

/-- C9: `iterate.seconds` produces exactly the same sequence as
`iterate.minutes` for every start, end and consumption bound — both use a
fixed one-minute step; in particular the second yield of
`iterate.seconds` is one minute (60000000 µs), not one second, after the
start. -/
theorem c9_seconds_equals_minutes (start : AwareDT) (endO : Option AwareDT) (fuel : Nat) :
    iterate_seconds start endO fuel = iterate_minutes start endO fuel
    ∧ iterate_seconds start none 2 = [start, start.addUs 60000000] :=
  ⟨rfl, rfl⟩

/-- C7: `detect_timezone` runs its strategies in the strict order
windows-query, `TZ`, `/etc/timezone`, `/etc/localtime`, PHP-style heuristic;
it returns the first strategy's result that succeeds, fails with the
detection error iff every strategy yields nothing, and the instrumented
trace shows exactly the strategies up to and including the first success
were attempted (the platform query exists only on win32). -/
theorem c7_detect_first_success (env : DetectEnv) :
    (detect_timezone env =
      match firstSome (strategyOrder.map (stratResult env)) with
      | some tz => Except.ok tz
      | none => Except.error PyErr.detectionFailed)
    ∧ (detect_timezone env = .error .detectionFailed ↔
        ∀ s ∈ strategyOrder, stratResult env s = none)
    ∧ ((detectTrace env).2 =
        (if env.isWin32 then strategyOrder else strategyOrder.tail).take
          (leadingNones
            ((if env.isWin32 then strategyOrder else strategyOrder.tail).map (stratResult env)) + 1)) := by
  obtain ⟨w32, w, e, t, l, p⟩ := env
  cases w32 <;> cases w <;> cases e <;> cases t <;> cases l <;> cases p <;>
    simp [detect_timezone, detectTrace, detectAfterWindows, stratResult, firstSome,
      strategyOrder, leadingNones]

/-- An environment whose catalog scan yields exactly one match for the
parsed `/etc/localtime` rule. -/
def c8OneMatchEnv : LocaltimeEnv :=
  ⟨some utcTZ, [("UTC".data, utcTZ)], utcCatalog, fun _ _ => true⟩

/-- C8 counterexample: with exactly one catalog match, the
`/etc/localtime` detection step returns that match but does **not**
register anything under the `"/etc/localtime"` cache key — the registration
is not performed "regardless of the match count". -/
theorem c8_counterexample_one_match :
    (etcLocaltimeDetect c8OneMatchEnv []).1 = some utcTZ
    ∧ (etcLocaltimeDetect c8OneMatchEnv []).2.lookup "/etc/localtime".data = none := by
  exact ⟨rfl, rfl⟩

/-- C8 (amended): whenever the `/etc/localtime` step runs, the raw parsed
rule is registered in the provider's identifier cache under the literal key
`"/etc/localtime"` exactly when the catalog search found **zero** matches
(the rule is then also the returned result); with one or more matches the
cache is left untouched. -/
theorem c8_cache_registration (env : LocaltimeEnv) (cache : Catalog) (lt : TZRule)
    (h : env.localtime = some lt) :
    (localtimeMatches env lt = [] →
      etcLocaltimeDetect env cache = (some lt, cacheInsert "/etc/localtime".data lt cache))
    ∧ (localtimeMatches env lt ≠ [] → (etcLocaltimeDetect env cache).2 = cache) := by
  unfold etcLocaltimeDetect
  rw [h]
  cases hm : localtimeMatches env lt with
  | nil => simp [hm]
  | cons a rest =>
    cases rest with
    | nil => simp [hm]
    | cons b rest2 => simp [hm]

/-- An environment whose catalog scan yields no match. -/
def c8ZeroMatchEnv : LocaltimeEnv :=
  ⟨some utcTZ, [("UTC".data, utcTZ)], utcCatalog, fun _ _ => false⟩

theorem c8_cache_registration_witness :
    etcLocaltimeDetect c8ZeroMatchEnv [] = (some utcTZ, [("/etc/localtime".data, utcTZ)]) := by
  have h := (c8_cache_registration c8ZeroMatchEnv [] utcTZ rfl).1 (by rfl)
  simpa [cacheInsert] using h

/-- C2: constructing from a leading datetime argument fails with the
conflicting-zone `TypeError` when the source value carries a zone and a
resolving explicit zone argument is supplied (trailing positional or
`tzinfo` keyword), and with the missing-zone `TypeError` when the source is
naive and no zone argument is supplied at all. -/
theorem c2_conflicting_and_missing_zone (localtz : TZRule) (catalog : Catalog)
    (d : NaiveDT) (posZone : Option ZoneArg) (kw : Kw) :
    (∀ tzi0 z tz, (posZone = some z ∨ (posZone = none ∧ kw.tzinfo = some z)) →
      tzinfome catalog z = .ok tz →
      dtNew localtz catalog (.dtArg d (some tzi0)) posZone kw = .error .conflictingZone)
    ∧ (posZone = none → kw.tzinfo = none →
      dtNew localtz catalog (.dtArg d none) posZone kw = .error .missingZone) := by
  constructor
  · rintro tzi0 z tz (hpz | ⟨hpz, hkw⟩) hres
    · subst hpz
      simp [dtNew, hres, Except.map]
    · subst hpz
      simp [dtNew, hres, hkw, Except.map]
  · rintro hpz hkw
    subst hpz
    simp [dtNew, hkw]

theorem c2_witness :
    tzinfome utcCatalog (.name "UTC".data) = .ok utcTZ
    ∧ dtNew utcTZ utcCatalog (.dtArg ⟨2020, 1, 1, 0, 0, 0, 0⟩ (some utcTzi))
        (some (.name "UTC".data)) ⟨none, none⟩ = .error .conflictingZone
    ∧ dtNew utcTZ utcCatalog (.dtArg ⟨2020, 1, 1, 0, 0, 0, 0⟩ none) none ⟨none, none⟩
        = .error .missingZone :=
  ⟨by decide,
   (c2_conflicting_and_missing_zone utcTZ utcCatalog ⟨2020, 1, 1, 0, 0, 0, 0⟩
      (some (.name "UTC".data)) ⟨none, none⟩).1 utcTzi (.name "UTC".data) utcTZ
      (Or.inl rfl) (by decide),
   (c2_conflicting_and_missing_zone utcTZ utcCatalog ⟨2020, 1, 1, 0, 0, 0, 0⟩
      none ⟨none, none⟩).2 rfl rfl⟩

/-- C3: at the ambiguous fall-back wall-clock time 2010-11-07 01:30 in the
US/Eastern extract, raw-fields construction without a disambiguation flag
fails with `AmbiguousTimeError` (the local time has two candidate
localizations); but *with* the `is_dst` flag the construction does not
succeed as specified — the still-unpopped `is_dst` keyword reaches the
plain `datetime.datetime` constructor, which rejects it with a `TypeError`
before localization is ever attempted. -/
theorem c3_is_dst_keyword_bug :
    (dtNew utcTZ [] (.fieldsArg ⟨2010, 11, 7, 1, 30, 0, 0⟩) (some (.rule eastern2010))
        ⟨none, none⟩ = .error .ambiguousTime)
    ∧ (dtNew utcTZ [] (.fieldsArg ⟨2010, 11, 7, 1, 30, 0, 0⟩) (some (.rule eastern2010))
        ⟨none, some false⟩ = .error .invalidKeywordArgument)
    ∧ (eastern2010.localizeCandidates
        (NaiveDT.toInstant ⟨2010, 11, 7, 1, 30, 0, 0⟩)).length = 2 := by
  exact ⟨by decide, by decide, by decide⟩

/-- C1: for every aware value `v` strictly between the module's `min`/`max`
sentinels (with the `datetime` microsecond invariant and whole-second
`pytz` offset), `utcfromtimestamp(v.totimestamp())` succeeds and the result
compares equal to `v` (Python `==` on aware datetimes is instant equality),
with the microseconds preserved exactly: the timestamp is taken as the
exact rational the expression denotes, IEEE float rounding idealized away. -/
theorem c1_timestamp_roundtrip (localtz : TZRule) (catalog : Catalog) (v : AwareDT)
    (hval : v.dt.Valid) (hoff : (1000000 : Int) ∣ v.tzi.info.utcoffset)
    (_hmin : dtzMin.instant < v.instant) (_hmax : v.instant < dtzMax.instant) :
    ∃ w, utcfromtimestamp localtz catalog v.totimestamp = .ok w ∧ pyEq w v := by
  have hmb : 0 ≤ v.dt.microsecond ∧ v.dt.microsecond < 1000000 := by
    have hv := hval
    unfold NaiveDT.Valid at hv
    omega
  have hts : v.totimestamp * 1000000 = (v.instant : ℚ) :=
    totimestamp_scaled v hmb.1 hmb.2 hoff
  unfold utcfromtimestamp
  rw [hts, pyRound_int]
  refine ⟨_, rfl, ?_⟩
  simp only [pyEq, AwareDT.instant, dtNew, Tzi.normalize, utcTzi, utcTZ, TZRule.infoAt,
    List.foldl_nil, NaiveDT.toInstant_ofInstant]
  omega

theorem c1_timestamp_roundtrip_witness :
    sampleV.dt.Valid ∧ dtzMin.instant < sampleV.instant ∧ sampleV.instant < dtzMax.instant
    ∧ ∃ w, utcfromtimestamp utcTZ utcCatalog sampleV.totimestamp = .ok w ∧ pyEq w sampleV :=
  ⟨by decide, by decide, by decide,
   c1_timestamp_roundtrip utcTZ utcCatalog sampleV (by decide) ⟨0, rfl⟩ (by decide) (by decide)⟩

/-- Values denoting the same instant have the same Unix timestamp (under
the representation invariants). -/
theorem totimestamp_eq_of_instant_eq (w v : AwareDT)
    (hw0 : 0 ≤ w.dt.microsecond) (hw1 : w.dt.microsecond < 1000000)
    (hwo : (1000000 : Int) ∣ w.tzi.info.utcoffset)
    (hv0 : 0 ≤ v.dt.microsecond) (hv1 : v.dt.microsecond < 1000000)
    (hvo : (1000000 : Int) ∣ v.tzi.info.utcoffset)
    (heq : w.instant = v.instant) : w.totimestamp = v.totimestamp := by
  have h1 := totimestamp_scaled w hw0 hw1 hwo
  have h2 := totimestamp_scaled v hv0 hv1 hvo
  apply mul_right_cancel₀ (b := (1000000 : ℚ)) (by norm_num)
  rw [h1, h2, heq]

/-- C10: zone conversion preserves the absolute instant: for an aware value
`v` (with the `datetime` microsecond invariant and whole-second `pytz`
offset) and a zone identifier resolving to a rule with whole-second
offsets, `v.astimezone(z)` succeeds, the result compares equal to `v`
(Python `==` is instant equality) and has the same Unix timestamp — only
the calendar fields and the attached zone are re-expressed. -/
theorem c10_astimezone_preserves_instant (localtz : TZRule) (catalog : Catalog)
    (v : AwareDT) (z : ZoneArg) (tz : TZRule)
    (hval : v.dt.Valid) (hoff : (1000000 : Int) ∣ v.tzi.info.utcoffset)
    (hz : tzinfome catalog z = .ok tz) (hwf : tz.OffsetsWF) :
    ∃ w, v.astimezone localtz catalog z = .ok w ∧ pyEq w v
      ∧ w.totimestamp = v.totimestamp ∧ w.tzi.rule = tz := by
  have hmb : 0 ≤ v.dt.microsecond ∧ v.dt.microsecond < 1000000 := by
    have hv := hval
    unfold NaiveDT.Valid at hv
    omega
  have key : ∀ w : AwareDT, v.astimezone localtz catalog z = .ok w →
      pyEq w v ∧ (0 ≤ w.dt.microsecond ∧ w.dt.microsecond < 1000000)
      ∧ (1000000 : Int) ∣ w.tzi.info.utcoffset ∧ w.tzi.rule = tz := by
    intro w hw
    unfold AwareDT.astimezone at hw
    rw [hz] at hw
    injection hw with hw2
    subst hw2
    refine ⟨?_, ?_, ?_, rfl⟩
    · simp only [pyEq, AwareDT.instant, AwareDT.astimezonePure, Tzi.normalize,
        NaiveDT.toInstant_ofInstant]
      ring
    · exact NaiveDT.ofInstant_microsecond _
    · exact TZRule.infoAt_dvd tz _ hwf
  have hww : v.astimezone localtz catalog z = Except.ok
      ⟨((v.astimezonePure tz).2.normalize (v.astimezonePure tz).1).1,
       ((v.astimezonePure tz).2.normalize (v.astimezonePure tz).1).2,
       decide (((v.astimezonePure tz).2.normalize (v.astimezonePure tz).1).2.info.dst ≠ 0)⟩ := by
    unfold AwareDT.astimezone
    rw [hz]
    rfl
  have hk := key _ hww
  exact ⟨_, hww, hk.1,
    totimestamp_eq_of_instant_eq _ v hk.2.1.1 hk.2.1.2 hk.2.2.1 hmb.1 hmb.2 hoff hk.1,
    hk.2.2.2⟩

instance (a b : Int) : Decidable (a ∣ b) :=
  decidable_of_iff (b % a = 0) Int.dvd_iff_emod_eq_zero.symm

theorem c10_astimezone_witness :
    tzinfome utcCatalog (.rule eastern2010) = .ok eastern2010
    ∧ ∃ w, sampleV.astimezone utcTZ utcCatalog (.rule eastern2010) = .ok w
        ∧ pyEq w sampleV ∧ w.totimestamp = sampleV.totimestamp ∧ w.tzi.rule = eastern2010 :=
  ⟨rfl,
   c10_astimezone_preserves_instant utcTZ utcCatalog sampleV (.rule eastern2010) eastern2010
     (by decide) ⟨0, rfl⟩ rfl (show eastern2010.OffsetsWF by unfold TZRule.OffsetsWF; decide)⟩

/-- The value after `k` steps of `toyield += delta`. -/
def stepN (delta : Int) : Nat → AwareDT → AwareDT
  | 0, start => start
  | k + 1, start => stepN delta k (start.addUs delta)

theorem stepN_instant (delta : Int) (k : Nat) : ∀ start : AwareDT,
    (stepN delta k start).instant = start.instant + k * delta := by
  induction k with
  | zero =>
    intro start
    have h0 : stepN delta 0 start = start := rfl
    rw [h0]
    norm_num
  | succ n ih =>
    intro start
    have hstep : stepN delta (n + 1) start = stepN delta n (start.addUs delta) := rfl
    rw [hstep, ih (start.addUs delta), AwareDT.addUs_instant]
    push_cast
    ring

theorem betweenAux_bounded (delta : Int) (e : AwareDT) (fuel : Nat) :
    ∀ start : AwareDT, betweenAux delta (some e) start fuel
      = ((List.range fuel).map (fun k => stepN delta k start)).takeWhile
          (fun x => pyLt x e) := by
  induction fuel with
  | zero =>
    intro start
    simp [betweenAux]
  | succ n ih =>
    intro start
    have hstep : betweenAux delta (some e) start (n + 1)
        = if start.instant < e.instant then
            start :: betweenAux delta (some e) (start.addUs delta) n
          else [] := rfl
    rw [hstep, List.range_succ_eq_map, List.map_cons, List.map_map]
    have hcomp : ((fun k => stepN delta k start) ∘ Nat.succ)
        = fun k => stepN delta k (start.addUs delta) := by
      funext k
      rfl
    rw [hcomp, List.takeWhile_cons]
    by_cases h : start.instant < e.instant
    · rw [if_pos h, ih (start.addUs delta)]
      have hzero : stepN delta 0 start = start := rfl
      rw [hzero, if_pos (show pyLt start e = true from by simp [pyLt, h])]
    · rw [if_neg h]
      have hzero : stepN delta 0 start = start := rfl
      rw [hzero, if_neg (show ¬pyLt start e = true from by simp [pyLt, h])]

theorem betweenAux_unbounded (delta : Int) (fuel : Nat) :
    ∀ start : AwareDT, betweenAux delta none start fuel
      = (List.range fuel).map (fun k => stepN delta k start) := by
  induction fuel with
  | zero =>
    intro start
    simp [betweenAux]
  | succ n ih =>
    intro start
    have hstep : betweenAux delta none start (n + 1)
        = start :: betweenAux delta none (start.addUs delta) n := rfl
    rw [hstep, List.range_succ_eq_map, List.map_cons, List.map_map]
    have hcomp : ((fun k => stepN delta k start) ∘ Nat.succ)
        = fun k => stepN delta k (start.addUs delta) := by
      funext k
      rfl
    rw [hcomp, ih (start.addUs delta)]
    rfl

/-- C4: `between(start, delta, end)` yields, in order, exactly the values
`start + k*delta` (`k = 0, 1, 2, …`): the bounded run is the prefix of the
step sequence of those values strictly less than `end` (Python `<` on
aware values is instant comparison), the run without `end` never stops by
itself (it fills any consumption bound `fuel`), the `k`-th value's instant
is `start + k*delta`, a positive step makes the sequence strictly
increasing, and with a 1-day step and `end = start + 3 days` exactly the
three values `start`, `start+1d`, `start+2d` are yielded. -/
theorem c4_between_yields (start e : AwareDT) (delta : Int) (fuel : Nat) :
    (iterate_between start delta (some e) fuel
      = ((List.range fuel).map (fun k => stepN delta k start)).takeWhile
          (fun x => pyLt x e))
    ∧ (iterate_between start delta none fuel
      = (List.range fuel).map (fun k => stepN delta k start))
    ∧ (∀ k : Nat, (stepN delta k start).instant = start.instant + k * delta)
    ∧ (0 < delta → ∀ k j : Nat, k < j →
        (stepN delta k start).instant < (stepN delta j start).instant)
    ∧ (iterate_between start 86400000000 (some (start.addUs 259200000000)) 10
      = [start, start.addUs 86400000000, (start.addUs 86400000000).addUs 86400000000]) := by
  have hstep : ∀ (cur : AwareDT) (n : Nat),
      betweenAux 86400000000 (some (start.addUs 259200000000)) cur (n + 1)
        = if cur.instant < (start.addUs 259200000000).instant then
            cur :: betweenAux 86400000000 (some (start.addUs 259200000000))
              (cur.addUs 86400000000) n
          else [] := fun cur n => rfl
  refine ⟨betweenAux_bounded delta e fuel start, betweenAux_unbounded delta fuel start,
    fun k => stepN_instant delta k start, ?_, ?_⟩
  · intro hd k j hkj
    rw [stepN_instant delta k start, stepN_instant delta j start]
    have hmul : (k : Int) * delta < (j : Int) * delta := by
      apply mul_lt_mul_of_pos_right _ hd
      exact_mod_cast hkj
    omega
  · show betweenAux 86400000000 (some (start.addUs 259200000000)) start 10 = _
    rw [hstep, if_pos (by rw [AwareDT.addUs_instant]; omega)]
    rw [hstep, if_pos (by rw [AwareDT.addUs_instant, AwareDT.addUs_instant]; omega)]
    rw [hstep, if_pos (by
      rw [AwareDT.addUs_instant, AwareDT.addUs_instant, AwareDT.addUs_instant]
      omega)]
    rw [hstep, if_neg (by
      rw [AwareDT.addUs_instant, AwareDT.addUs_instant, AwareDT.addUs_instant,
        AwareDT.addUs_instant]
      omega)]

theorem c4_between_yields_witness :
    (stepN 86400000000 0 sampleV).instant < (stepN 86400000000 1 sampleV).instant
    ∧ iterate_between sampleV 86400000000 (some (sampleV.addUs 259200000000)) 10
      = [sampleV, sampleV.addUs 86400000000, (sampleV.addUs 86400000000).addUs 86400000000] :=
  ⟨(c4_between_yields sampleV (sampleV.addUs 259200000000) 86400000000 10).2.2.2.1
      (by norm_num) 0 1 (by norm_num),
   (c4_between_yields sampleV (sampleV.addUs 259200000000) 86400000000 10).2.2.2.2⟩

/-- C5 counterexample: with the local zone UTC and the clock at
2020-05-06 07:08:09.123456, `smartparse("yesterday")` returns
2020-05-05 **07:08:09.123456** — one day before `now` with the time of day
preserved, not midnight of the previous day: only the parser `default` has
its time of day zeroed, the working value `dt` does not. -/
theorem c5_yesterday_counterexample :
    smartparse utcTZ utcCatalog extNull nowInst none "yesterday".data
      = .ok ⟨⟨2020, 5, 5, 7, 8, 9, 123456⟩, utcTzi, false⟩
    ∧ (AwareDT.mk ⟨2020, 5, 5, 7, 8, 9, 123456⟩ utcTzi false).dt.hour ≠ 0 :=
  ⟨by decide, by decide⟩

/-- C5 (amended): `smartparse("yesterday", zone)` returns `now` in the
target zone minus one day — with the time of day carried over from `now`,
not zeroed; the midnight-normalized value is only the `default` fed to the
conventional-format parser branch.  Stated for any run in which taking
`now` and computing that default succeed. -/
theorem c5_yesterday_amended (localtz : TZRule) (catalog : Catalog)
    (extParse : List Char → NaiveDT → Except PyErr AwareDT) (utcInst : Int)
    (tzArg : Option ZoneArg) (nowv dflt : AwareDT)
    (hnow : dtNow localtz catalog utcInst tzArg = .ok nowv)
    (hrep : nowv.replace localtz catalog midnightRepl none none = .ok dflt) :
    smartparse localtz catalog extParse utcInst tzArg "yesterday".data
      = .ok (nowv.addUs (-86400000000))
    ∧ (nowv.addUs (-86400000000)).instant = nowv.instant - 86400000000 := by
  constructor
  · unfold smartparse
    rw [hnow]
    simp only []
    rw [hrep]
    rfl
  · rw [AwareDT.addUs_instant]
    ring

theorem c5_yesterday_amended_witness :
    smartparse utcTZ utcCatalog extNull nowInst none "yesterday".data
      = .ok (sampleV.addUs (-86400000000))
    ∧ (sampleV.addUs (-86400000000)).instant = sampleV.instant - 86400000000 :=
  c5_yesterday_amended utcTZ utcCatalog extNull nowInst none sampleV
    ⟨⟨2020, 5, 6, 0, 0, 0, 0⟩, utcTzi, false⟩ (by decide) (by decide)

/-- The unit spellings the "ago" grammar accepts: for each of
seconds/minutes/hours/days/weeks/months/years, the single letter, the stem,
and the stem+"s" (the single letter "m" of months coincides with the one of
minutes, which wins by scan order). -/
def allowedUnitLabels : List (List Char) :=
  ["s".data, "second".data, "seconds".data,
   "m".data, "minute".data, "minutes".data,
   "h".data, "hour".data, "hours".data,
   "d".data, "day".data, "days".data,
   "w".data, "week".data, "weeks".data,
   "month".data, "months".data,
   "y".data, "year".data, "years".data]

/-- C6: the "ago" branch accepts a unit label exactly when it is a
single-letter, stem, or stem+"s" spelling of one of the seven unit names;
on the sample clock 2020-05-06 07:08:09.123456 UTC, `"3 hours ago"` parses
to the anchor minus three hours, `"1h5m ago"` to the anchor minus one hour
five minutes (the scanned pairs summed into one relative delta subtracted
from the anchor), and the unit label `"x"` fails with the
unparseable-unit error. -/
theorem c6_ago_units (u : List Char) :
    ((matchUnit u).isSome ↔ u ∈ allowedUnitLabels)
    ∧ smartparse utcTZ utcCatalog extNull nowInst none "3 hours ago".data
      = .ok ⟨⟨2020, 5, 6, 4, 8, 9, 123456⟩, utcTzi, false⟩
    ∧ smartparse utcTZ utcCatalog extNull nowInst none "1h5m ago".data
      = .ok ⟨⟨2020, 5, 6, 6, 3, 9, 123456⟩, utcTzi, false⟩
    ∧ smartparse utcTZ utcCatalog extNull nowInst none "1 x ago".data
      = .error .unparseableUnit := by
  refine ⟨?_, by decide, by decide, by decide⟩
  constructor
  · intro h
    obtain ⟨bit, hmem, hp⟩ := List.find?_isSome.mp h
    have hmem2 : bit = "seconds".data ∨ bit = "minutes".data ∨ bit = "hours".data
        ∨ bit = "days".data ∨ bit = "weeks".data ∨ bit = "months".data
        ∨ bit = "years".data := by
      simpa [unitNames] using hmem
    unfold unitMatches at hp
    rw [Bool.or_eq_true, Bool.or_eq_true, beq_iff_eq, beq_iff_eq, beq_iff_eq] at hp
    rcases hmem2 with h2 | h2 | h2 | h2 | h2 | h2 | h2 <;> subst h2 <;>
      rcases hp with (h3 | h3) | h3 <;> subst h3 <;> decide
  · intro h
    fin_cases h <;> decide
